import Mathlib

/-!
Shallow embedding of `src/src/App.jsx` from the regalia-clothing React
performance example.

The active code of the component is:

  const [count1, setCount1] = useState(0);
  const [count2, setCount2] = useState(0);
  const incrementCount1 = () => setCount1(count1 + 1);
  const incrementCount2 = () => setCount2(count2 + 1);
  const somethingThatTakesLong = useMemo(() => {
    console.log("somethingThatTakesLong");
    return count1 * 60 * 5;
  }, [count1]);

We model the component as a deterministic state machine.  A state holds the
two counters, the `useMemo` cache (the dependency value the cached result was
computed for, plus the cached result), and the list of diagnostic trace lines
emitted by the `console.log` inside the memo body.  A button press mutates its
counter and then performs one render pass; the render pass re-runs the memo
body exactly when the dependency array `[count1]` differs from the cached one
(on the initial render there is no cached dependency, so the body runs).
-/

namespace RegaliaApp

/-- Body of the useMemo computation in App.jsx: `count1 * 60 * 5`. -/
def somethingThatTakesLongCompute (count1 : Int) : Int :=
  count1 * 60 * 5

/-- The diagnostic trace line printed by the memo body. -/
def traceMessage : String := "somethingThatTakesLong"

/-- The useMemo cache: the dependency value the cached result was computed
for (`none` before the initial render) and the cached result itself. -/
structure MemoState where
  lastDeps : Option Int
  cachedValue : Int
deriving DecidableEq, Repr

/-- One settled UI state of the App component. -/
structure AppState where
  count1 : Int
  count2 : Int
  memo : MemoState
  log : List String
deriving DecidableEq, Repr

/-- The value displayed in the "Do Something That Takes Long" region:
the result held by the useMemo cache. -/
def derivedValue (s : AppState) : Int :=
  s.memo.cachedValue

/-- Number of executions of the memo body so far, observed through the
trace lines it prints. -/
def recomputeCount (s : AppState) : Nat :=
  s.log.length

/-- One render pass: useMemo re-runs its body exactly when the dependency
array `[count1]` differs from the cached one; otherwise the cached value is
reused and nothing is printed. -/
def render (s : AppState) : AppState :=
  if s.memo.lastDeps = some s.count1 then s
  else { s with
         memo := ⟨some s.count1, somethingThatTakesLongCompute s.count1⟩,
         log := s.log ++ [traceMessage] }

/-- The component state before the initial render: both `useState(0)` hooks
initialised, no memo cache, no trace output. -/
def preMount : AppState :=
  ⟨0, 0, ⟨none, 0⟩, []⟩

/-- The state right after the initial (mount) render. -/
def mount : AppState :=
  render preMount

/-- The two user actions: the "Increase Count1" and "Increase Count2"
buttons. -/
inductive Action where
  | inc1 : Action
  | inc2 : Action
deriving DecidableEq, Repr

/-- Handler of the "Increase Count1" button: `setCount1(count1 + 1)`. -/
def incrementCount1 (s : AppState) : AppState :=
  { s with count1 := s.count1 + 1 }

/-- Handler of the "Increase Count2" button: `setCount2(count2 + 1)`. -/
def incrementCount2 (s : AppState) : AppState :=
  { s with count2 := s.count2 + 1 }

/-- A button press: run the handler, then the render pass it schedules. -/
def press (a : Action) (s : AppState) : AppState :=
  match a with
  | .inc1 => render (incrementCount1 s)
  | .inc2 => render (incrementCount2 s)

/-- Run a sequence of button presses. -/
def run (acts : List Action) (s : AppState) : AppState :=
  acts.foldl (fun t a => press a t) s

/-- A state is settled when the memo cache is consistent with the current
value of `count1`: the cache was computed for the current dependency value
and holds the body's result for it.  Every state the user can observe
(after any render) is settled. -/
def Settled (s : AppState) : Prop :=
  s.memo.lastDeps = some s.count1 ∧
  s.memo.cachedValue = somethingThatTakesLongCompute s.count1

instance instDecidableSettled (s : AppState) : Decidable (Settled s) :=
  inferInstanceAs (Decidable (_ ∧ _))

theorem render_count1 (s : AppState) : (render s).count1 = s.count1 := by
  unfold render
  split <;> rfl

theorem render_count2 (s : AppState) : (render s).count2 = s.count2 := by
  unfold render
  split <;> rfl

theorem press_inc1_count1 (s : AppState) :
    (press Action.inc1 s).count1 = s.count1 + 1 := by
  simp [press, incrementCount1, render_count1]

theorem press_inc2_count1 (s : AppState) :
    (press Action.inc2 s).count1 = s.count1 := by
  simp [press, incrementCount2, render_count1]

theorem press_inc1_count2 (s : AppState) :
    (press Action.inc1 s).count2 = s.count2 := by
  simp [press, incrementCount1, render_count2]

theorem press_inc2_count2 (s : AppState) :
    (press Action.inc2 s).count2 = s.count2 + 1 := by
  simp [press, incrementCount2, render_count2]

theorem run_cons (a : Action) (acts : List Action) (s : AppState) :
    run (a :: acts) s = run acts (press a s) := rfl

theorem run_nil (s : AppState) : run [] s = s := rfl

theorem run_count1 (acts : List Action) (s : AppState) :
    (run acts s).count1 = s.count1 + (acts.count Action.inc1 : Int) := by
  induction acts generalizing s with
  | nil => simp [run]
  | cons a acts ih =>
    rw [run_cons, ih]
    cases a
    · simp [press_inc1_count1, List.count_cons]
      ring
    · simp [press_inc2_count1, List.count_cons]

theorem run_count2 (acts : List Action) (s : AppState) :
    (run acts s).count2 = s.count2 + (acts.count Action.inc2 : Int) := by
  induction acts generalizing s with
  | nil => simp [run]
  | cons a acts ih =>
    rw [run_cons, ih]
    cases a
    · simp [press_inc1_count2, List.count_cons]
    · simp [press_inc2_count2, List.count_cons]
      ring

theorem press_inc2_eq {s : AppState} (h : Settled s) :
    press Action.inc2 s = { s with count2 := s.count2 + 1 } := by
  simp [press, incrementCount2, render, h.1]

theorem press_inc1_eq {s : AppState} (h : Settled s) :
    press Action.inc1 s =
      { s with
        count1 := s.count1 + 1,
        memo := ⟨some (s.count1 + 1),
                 somethingThatTakesLongCompute (s.count1 + 1)⟩,
        log := s.log ++ [traceMessage] } := by
  have hne : ¬ s.memo.lastDeps = some (s.count1 + 1) := by
    rw [h.1]
    simp
  simp [press, incrementCount1, render, hne]

theorem settled_mount : Settled mount := by decide

theorem settled_press (a : Action) {s : AppState} (h : Settled s) :
    Settled (press a s) := by
  cases a
  · rw [press_inc1_eq h]
    exact ⟨rfl, rfl⟩
  · rw [press_inc2_eq h]
    exact ⟨h.1, h.2⟩

theorem settled_run (acts : List Action) {s : AppState} (h : Settled s) :
    Settled (run acts s) := by
  induction acts generalizing s with
  | nil => exact h
  | cons a acts ih => exact ih (settled_press a h)

theorem derived_settled {s : AppState} (h : Settled s) :
    derivedValue s = s.count1 * 300 := by
  rw [derivedValue, h.2, somethingThatTakesLongCompute]
  ring

theorem derived_press_inc1 {s : AppState} (h : Settled s) :
    derivedValue (press Action.inc1 s) = derivedValue s + 300 := by
  rw [press_inc1_eq h, derived_settled h]
  show somethingThatTakesLongCompute (s.count1 + 1) = s.count1 * 300 + 300
  rw [somethingThatTakesLongCompute]
  ring

theorem derived_press_inc2 {s : AppState} (h : Settled s) :
    derivedValue (press Action.inc2 s) = derivedValue s := by
  rw [press_inc2_eq h]
  rfl

theorem derived_le_press (a : Action) {s : AppState} (h : Settled s) :
    derivedValue s ≤ derivedValue (press a s) := by
  cases a
  · rw [derived_press_inc1 h]
    omega
  · rw [derived_press_inc2 h]

theorem derived_mono (acts : List Action) {s : AppState} (h : Settled s) :
    derivedValue s ≤ derivedValue (run acts s) := by
  induction acts generalizing s with
  | nil => exact le_refl _
  | cons a acts ih =>
    rw [run_cons]
    exact le_trans (derived_le_press a h) (ih (settled_press a h))

theorem recompute_press_inc1 {s : AppState} (h : Settled s) :
    recomputeCount (press Action.inc1 s) = recomputeCount s + 1 := by
  rw [press_inc1_eq h]
  simp [recomputeCount]

theorem recompute_press_inc2 {s : AppState} (h : Settled s) :
    recomputeCount (press Action.inc2 s) = recomputeCount s := by
  rw [press_inc2_eq h]
  rfl

theorem run_inc2_eq (n : Nat) {s : AppState} (h : Settled s) :
    run (List.replicate n Action.inc2) s =
      { s with count2 := s.count2 + (n : Int) } := by
  induction n generalizing s with
  | zero =>
    cases s
    simp [run]
  | succ n ih =>
    have h' : Settled { s with count2 := s.count2 + 1 } := ⟨h.1, h.2⟩
    rw [List.replicate_succ, run_cons, press_inc2_eq h, ih h']
    have h2 : s.count2 + 1 + (n : Int) = s.count2 + ((n + 1 : Nat) : Int) := by
      push_cast
      ring
    rw [h2]

/-- C1: in every settled state (the initial render included) the displayed
derived value equals `count1 * 300`, hence it is a function of `count1`
alone and does not depend on `count2`; moreover the code's expression
`count1 * 60 * 5` equals `300 * count1` for every integer. -/
theorem c1_derived_is_count1_times_300 (s : AppState) (c : Int)
    (h : Settled s) :
    derivedValue s = s.count1 * 300 ∧
    somethingThatTakesLongCompute c = 300 * c := by
  refine ⟨derived_settled h, ?_⟩
  rw [somethingThatTakesLongCompute]
  ring

theorem c1_derived_is_count1_times_300_witness :
    Settled mount ∧
    (derivedValue mount = mount.count1 * 300 ∧
     somethingThatTakesLongCompute 7 = 300 * 7) :=
  ⟨by decide, c1_derived_is_count1_times_300 mount 7 (by decide)⟩

/-- C2: after any sequence of presses from the initial mount, `count1`
equals the number of inc1 presses and `count2` the number of inc2 presses;
a single press increments its own counter by exactly 1. -/
theorem c2_counters_count_actions (acts : List Action) (s : AppState) :
    (run acts mount).count1 = (acts.count Action.inc1 : Int) ∧
    (run acts mount).count2 = (acts.count Action.inc2 : Int) ∧
    (press Action.inc1 s).count1 = s.count1 + 1 ∧
    (press Action.inc2 s).count2 = s.count2 + 1 := by
  have hm1 : mount.count1 = 0 := by decide
  have hm2 : mount.count2 = 0 := by decide
  refine ⟨?_, ?_, press_inc1_count1 s, press_inc2_count2 s⟩
  · rw [run_count1, hm1]
    ring
  · rw [run_count2, hm2]
    ring

/-- C3: each increment action leaves the opposing counter unchanged. -/
theorem c3_opposing_counter_unchanged (s : AppState) :
    (press Action.inc1 s).count2 = s.count2 ∧
    (press Action.inc2 s).count1 = s.count1 :=
  ⟨press_inc1_count2 s, press_inc2_count1 s⟩

/-- C4: from any settled state, a press of inc1 (a render in which `count1`
differs from the previous render) runs the memo body exactly once and emits
exactly one trace line, while a press of inc2 (a render triggered solely by
a `count2` change) runs it zero times and emits nothing. -/
theorem c4_recompute_once_per_count1_change (s : AppState)
    (h : Settled s) :
    recomputeCount (press Action.inc1 s) = recomputeCount s + 1 ∧
    recomputeCount (press Action.inc2 s) = recomputeCount s ∧
    (press Action.inc1 s).log = s.log ++ [traceMessage] ∧
    (press Action.inc2 s).log = s.log := by
  refine ⟨recompute_press_inc1 h, recompute_press_inc2 h, ?_, ?_⟩
  · rw [press_inc1_eq h]
  · rw [press_inc2_eq h]

theorem c4_recompute_once_per_count1_change_witness :
    Settled mount ∧
    (recomputeCount (press Action.inc1 mount) = recomputeCount mount + 1 ∧
     recomputeCount (press Action.inc2 mount) = recomputeCount mount ∧
     (press Action.inc1 mount).log = mount.log ++ [traceMessage] ∧
     (press Action.inc2 mount).log = mount.log) :=
  ⟨by decide, c4_recompute_once_per_count1_change mount (by decide)⟩

/-- C5: on the initial render, `count1 = 0`, `count2 = 0` and the derived
value is 0. -/
theorem c5_initial_render :
    mount.count1 = 0 ∧ mount.count2 = 0 ∧ derivedValue mount = 0 := by
  decide

/-- C6: pressing "Increase Count1" three times from the initial mount gives
`count1 = 3`, `count2 = 0`, derived value 900, and exactly three
recomputations beyond the one of the initial mount (one per new distinct
`count1` value visited, not one per render). -/
theorem c6_three_presses_of_inc1 :
    (run [Action.inc1, Action.inc1, Action.inc1] mount).count1 = 3 ∧
    (run [Action.inc1, Action.inc1, Action.inc1] mount).count2 = 0 ∧
    derivedValue (run [Action.inc1, Action.inc1, Action.inc1] mount) = 900 ∧
    recomputeCount (run [Action.inc1, Action.inc1, Action.inc1] mount) =
      recomputeCount mount + 3 := by
  decide

/-- C7, counterexample: a settled state with `count1 = 0` but `count2 = 1`
(one inc2 press after mount) from which five inc2 presses leave
`count2 = 6`, not 5 as the claim states for every such starting state. -/
theorem c7_counterexample :
    Settled (run [Action.inc2] mount) ∧
    (run [Action.inc2] mount).count1 = 0 ∧
    ¬ (run (List.replicate 5 Action.inc2)
         (run [Action.inc2] mount)).count2 = 5 := by
  decide

/-- C7, amended: from any settled state with `count1 = 0`, five inc2
presses increase `count2` by exactly 5 (so `count2 = 5` when starting from
`count2 = 0`), leave `count1 = 0` and the derived value 0, and leave the
recomputation count unchanged. -/
theorem c7_five_presses_of_inc2 (s : AppState) (h : Settled s)
    (h0 : s.count1 = 0) :
    (run (List.replicate 5 Action.inc2) s).count2 = s.count2 + 5 ∧
    (run (List.replicate 5 Action.inc2) s).count1 = 0 ∧
    derivedValue (run (List.replicate 5 Action.inc2) s) = 0 ∧
    recomputeCount (run (List.replicate 5 Action.inc2) s) =
      recomputeCount s := by
  rw [run_inc2_eq 5 h]
  refine ⟨by norm_num, h0, ?_, rfl⟩
  show s.memo.cachedValue = 0
  rw [h.2, h0]
  decide

theorem c7_five_presses_of_inc2_witness :
    (Settled mount ∧ mount.count1 = 0) ∧
    ((run (List.replicate 5 Action.inc2) mount).count2 = mount.count2 + 5 ∧
     (run (List.replicate 5 Action.inc2) mount).count1 = 0 ∧
     derivedValue (run (List.replicate 5 Action.inc2) mount) = 0 ∧
     recomputeCount (run (List.replicate 5 Action.inc2) mount) =
       recomputeCount mount) :=
  ⟨⟨by decide, by decide⟩,
   c7_five_presses_of_inc2 mount (by decide) (by decide)⟩

/-- C8: the derived-value evaluator is deterministic and pure: any two
settled states agreeing on `count1` display the same derived value,
whatever their `count2`, memo history or trace log. -/
theorem c8_derived_depends_only_on_count1 (s t : AppState)
    (hs : Settled s) (ht : Settled t) (h12 : s.count1 = t.count1) :
    derivedValue s = derivedValue t := by
  rw [derived_settled hs, derived_settled ht, h12]

theorem c8_derived_depends_only_on_count1_witness :
    (Settled mount ∧ Settled (press Action.inc2 mount) ∧
     mount.count1 = (press Action.inc2 mount).count1) ∧
    derivedValue mount = derivedValue (press Action.inc2 mount) :=
  ⟨⟨by decide, by decide, by decide⟩,
   c8_derived_depends_only_on_count1 mount (press Action.inc2 mount)
     (by decide) (by decide) (by decide)⟩

/-- C9: in every state reachable from the initial mount, both counters and
the derived value are nonnegative. -/
theorem c9_counters_nonnegative (acts : List Action) :
    0 ≤ (run acts mount).count1 ∧
    0 ≤ (run acts mount).count2 ∧
    0 ≤ derivedValue (run acts mount) := by
  have hm1 : mount.count1 = 0 := by decide
  have hm2 : mount.count2 = 0 := by decide
  have hs : Settled (run acts mount) := settled_run acts settled_mount
  refine ⟨?_, ?_, ?_⟩
  · rw [run_count1, hm1]
    omega
  · rw [run_count2, hm2]
    omega
  · rw [derived_settled hs, run_count1, hm1]
    have hn : (0 : Int) ≤ (acts.count Action.inc1 : Int) := by omega
    nlinarith

/-- C10: in every settled state the derived value is a multiple of 300; an
inc1 press increases it by exactly 300, an inc2 press leaves it unchanged,
and over any sequence of presses it never decreases. -/
theorem c10_derived_multiple_of_300_and_monotone (s : AppState)
    (acts : List Action) (h : Settled s) :
    (300 : Int) ∣ derivedValue s ∧
    derivedValue (press Action.inc1 s) = derivedValue s + 300 ∧
    derivedValue (press Action.inc2 s) = derivedValue s ∧
    derivedValue s ≤ derivedValue (run acts s) := by
  refine ⟨?_, derived_press_inc1 h, derived_press_inc2 h,
          derived_mono acts h⟩
  rw [derived_settled h]
  exact ⟨s.count1, by ring⟩

theorem c10_derived_multiple_of_300_and_monotone_witness :
    Settled mount ∧
    ((300 : Int) ∣ derivedValue mount ∧
     derivedValue (press Action.inc1 mount) = derivedValue mount + 300 ∧
     derivedValue (press Action.inc2 mount) = derivedValue mount ∧
     derivedValue mount ≤ derivedValue (run [Action.inc1] mount)) :=
  ⟨by decide,
   c10_derived_multiple_of_300_and_monotone mount [Action.inc1] (by decide)⟩

end RegaliaApp
